import Mathlib

/-!
The path-keyed item and meta stores of `fs/sqlcache`.

A shallow embedding of `fs/sqlcache/item.go` and `fs/sqlcache/meta.go`.

The two SQLite tables are lists of rows in rowid order.  Every gorm call of
the source is embedded as the SQL statement it issues, run on such a list:

* `Create`   is `INSERT INTO t (...) VALUES (...)`,
* `Delete`   is `DELETE FROM t WHERE ...`,
* `Updates`  is `UPDATE t SET ... WHERE ...`,
* `First`    is `SELECT * FROM t WHERE ... ORDER BY path LIMIT 1`,
* `Upsert`   is `INSERT ... ON CONFLICT (path) DO UPDATE SET info = ?`.

The statement failures of the embedding are the ones the engine raises on
these tables by itself: a violation of `PRIMARY KEY (path)`, a statement text
it cannot read, a `LIKE` pattern over its length limit.  Strings are sequences
of characters; the clock readings `time.Now().Unix()` are arguments.

The directory renames paste both paths into the text of their second
statement.  The embedding reads that text when no quote stands in either path;
a run that reaches the statement with a quote in a path is outside the
embedding, and the directory renames return `none` for it.
-/

namespace Sqlcache

/-! ## Strings -/

/-- Go `strings.Trim(s, "/")`: strip every leading and every trailing `/`. -/
def Trim (s : List Char) : List Char :=
  ((s.reverse.dropWhile (fun c => c == '/')).reverse).dropWhile (fun c => c == '/')

/-- Go `strings.Contains(s, sub)`. -/
def Contains (s sub : List Char) : Bool :=
  s.tails.any (fun t => sub.isPrefixOf t)

/-- Scanning loop of SQLite `replace(X, Y, Z)` for a non-empty `Y`: at each
position where `Y` starts, emit `Z` and skip the `Y.length` characters of the
occurrence (`skip` counts the characters of it still to be passed over). -/
def sqlReplaceGo (y z : List Char) : List Char → Nat → List Char
  | [], _ => []
  | _ :: cs, skip + 1 => sqlReplaceGo y z cs skip
  | c :: cs, 0 =>
    if y.isPrefixOf (c :: cs) then z ++ sqlReplaceGo y z cs (y.length - 1)
    else c :: sqlReplaceGo y z cs 0

/-- SQLite `replace(X, Y, Z)`: every occurrence of `Y` in `X`, found left to
right, is replaced by `Z`; an empty `Y` leaves `X` as it is. -/
def sqlReplace (x y z : List Char) : List Char :=
  if y.isEmpty then x else sqlReplaceGo y z x 0

/-- SQLite folds the 26 ASCII upper-case letters for `LIKE`. -/
def asciiLower (c : Char) : Char :=
  if 'A'.toNat ≤ c.toNat ∧ c.toNat ≤ 'Z'.toNat then Char.ofNat (c.toNat + 32) else c

/-- Some suffix of the string (the string itself and the empty one included)
satisfies `f`. -/
def anySuffix (f : List Char → Bool) : List Char → Bool
  | [] => f []
  | c :: cs => f (c :: cs) || anySuffix f cs

/-- SQLite `X LIKE P` without an ESCAPE clause: `%` stands for any run of
characters, `_` for one character, any other character for itself up to
ASCII case. -/
def sqlLike : List Char → List Char → Bool
  | [] => fun s => s.isEmpty
  | c :: p => fun s =>
    if c = '%' then anySuffix (sqlLike p) s
    else
      match s with
      | [] => false
      | d :: s' => (c == '_' || asciiLower c == asciiLower d) && sqlLike p s'

/-- The C string SQLite reads a text value as: the characters before the first
NUL. -/
def cString (s : List Char) : List Char :=
  s.takeWhile (fun c => c != Char.ofNat 0)

/-- SQL function `like(P, X)`, the value of `X LIKE P`: both texts are read as C
strings. -/
def likeFunc (pattern s : List Char) : Bool :=
  sqlLike (cString pattern) (cString s)

/-- Number of bytes of a string (UTF-8). -/
def utf8Len (s : List Char) : Nat :=
  s.foldl (fun n c => n + c.utf8Size) 0

/-- SQLite limit `SQLITE_MAX_LIKE_PATTERN_LENGTH`, in bytes. -/
def maxLikePatternLength : Nat := 50000

/-- Go conversion `int32(v)` of an integer: the low 32 bits, signed. -/
def int32 (v : Int) : Int :=
  (v + 2147483648) % 4294967296 - 2147483648

/-! ## Errors -/

/-- The errors a statement of this package can come back with. -/
inductive Err where
  /-- SQLite `SQLITE_CONSTRAINT_PRIMARYKEY` on the `path` column of `table`. -/
  | uniqueConstraint (table : String)
  /-- The statement text does not parse. -/
  | sqlError
  /-- SQLite `LIKE or GLOB pattern too complex`. -/
  | likePatternTooComplex
  /-- Value `gorm.ErrRecordNotFound`. -/
  | ErrRecordNotFound
  deriving DecidableEq, Repr

/-- Constant `ErrorOfUniqueKeyExist` of db.go. -/
def ErrorOfUniqueKeyExist : String := "UNIQUE constraint failed"

/-- Go `err.Error()`: the message text of an error. -/
def Err.Error : Err → String
  | .uniqueConstraint table =>
    "constraint failed: UNIQUE constraint failed: " ++ table ++ ".path (1555)"
  | .sqlError => "SQL logic error: unrecognized token (1)"
  | .likePatternTooComplex => "SQL logic error: LIKE or GLOB pattern too complex (1)"
  | .ErrRecordNotFound => "record not found"

/-- Test `strings.Contains(err.Error(), ErrorOfUniqueKeyExist)`. -/
def isUniqueKeyExist (e : Err) : Bool :=
  Contains (Err.Error e).toList ErrorOfUniqueKeyExist.toList

/-! ## Rows and tables -/

/-- Modelled from the spec: `fs.EntryType` is declared in package `fs`, outside
this directory; the data model gives `entryType: enum{File, Directory, ...}`
and the source converts it with `int32(itype)`: an integer type.  A value is
the integer it holds; `AddItem`, `AddMeta` and `UpsertMeta` store `int32` of
it, the other functions compare the stored code with the value itself. -/
abbrev EntryType := Int

/-- Modelled from the spec: constant `fs.EntryDirectory` of package `fs`, the
type code of a directory (the enumeration starts with it).  The statements
below use of the two codes only that they differ. -/
def EntryDirectory : EntryType := 0

/-- Modelled from the spec: constant `fs.EntryObject` of package `fs`, the type
code of a file (the member after `fs.EntryDirectory`). -/
def EntryObject : EntryType := 1

/-- Row of `item_list` (struct `Item`). -/
structure Item where
  Path : List Char
  Type_ : Int
  CreatedAt : Int
  UpdatedAt : Int
  deriving DecidableEq, Repr

/-- Row of `meta_list` (struct `ItemMeta`).  The payload `Info` is its sequence
of bytes: a nil slice and an empty one are the same payload. -/
structure ItemMeta where
  Path : List Char
  Type_ : Int
  Info : List UInt8
  CreatedAt : Int
  UpdatedAt : Int
  deriving DecidableEq, Repr

/-- Constant `SqlItemTableName`. -/
def SqlItemTableName : String := "item_list"

/-- Constant `SqlMetaTableName`. -/
def SqlMetaTableName : String := "meta_list"

/-- The database behind `globalDbHandle`: the two tables, rows in rowid order. -/
structure DB where
  item_list : List Item
  meta_list : List ItemMeta
  deriving DecidableEq, Repr

/-- Outcome of one statement on one table: the rows after it and the value of
`result.Error`.  A failed statement leaves the rows as they were. -/
structure Result (α : Type) where
  rows : List α
  Error : Option Err

/-- Constraint `PRIMARY KEY (path)`: no two rows of a table share a path. -/
def UniquePaths {α : Type} (key : α → List Char) (t : List α) : Prop :=
  (t.map key).Nodup

instance {α : Type} (key : α → List Char) (t : List α) : Decidable (UniquePaths key t) := by
  unfold UniquePaths
  infer_instance

/-! ## Statements -/

/-- Statement `INSERT`: appends the row, or fails on the primary key when a
row with the same path is present. -/
def Create {α : Type} (table : String) (key : α → List Char) (r : α) (t : List α) :
    Result α :=
  if t.any (fun x => key x == key r) then ⟨t, some (.uniqueConstraint table)⟩
  else ⟨t ++ [r], none⟩

/-- Statement `DELETE ... WHERE cond`. -/
def Delete {α : Type} (cond : α → Bool) (t : List α) : Result α :=
  ⟨t.filter (fun x => !cond x), none⟩

/-- Row loop of `UPDATE`: `done` holds the rows already visited (updated where
they matched), the second list the rows still to visit, in the order of the
table.  A matching row is rewritten by `set`; when another row of the table
holds the new path at that moment, the statement fails: SQLite checks the
primary key row by row, not at the end of the statement. -/
def UpdatesGo {α : Type} (table : String) (key : α → List Char) (cond : α → Bool)
    (set : α → α) : List α → List α → Except Err (List α)
  | done, [] => .ok done
  | done, r :: rest =>
    if cond r then
      if (done ++ rest).any (fun x => key x == key (set r)) then
        .error (.uniqueConstraint table)
      else UpdatesGo table key cond set (done ++ [set r]) rest
    else UpdatesGo table key cond set (done ++ [r]) rest

/-- Statement `UPDATE ... SET ... WHERE cond` (conflict resolution ABORT: a
failure undoes what the statement did so far). -/
def Updates {α : Type} (table : String) (key : α → List Char) (cond : α → Bool)
    (set : α → α) (t : List α) : Result α :=
  match UpdatesGo table key cond set [] t with
  | .ok t' => ⟨t', none⟩
  | .error e => ⟨t, some e⟩

/-- Statement `INSERT ... ON CONFLICT (path) DO UPDATE SET ...`: the row is
appended, or the row holding its path is rewritten by `onConflict`. -/
def Upsert {α : Type} (key : α → List Char) (r : α) (onConflict : α → α)
    (t : List α) : Result α :=
  if t.any (fun x => key x == key r) then
    ⟨t.map (fun x => if key x == key r then onConflict x else x), none⟩
  else ⟨t ++ [r], none⟩

/-- Go `db.Transaction(fc)`: commit what `fc` did when it returns nil, roll
back to the state at `Begin` when it returns an error. -/
def Transaction (fc : DB → DB × Option Err) (db : DB) : DB × Option Err :=
  match fc db with
  | (tx, none) => (tx, none)
  | (_, some e) => (db, some e)

/-- Go `db.Transaction(fc)` for a closure with a statement whose text the
embedding may not read: as `Transaction` when the run of the closure is
embedded, `none` when it is not. -/
def TransactionOpt (fc : DB → Option (DB × Option Err)) (db : DB) :
    Option (DB × Option Err) :=
  match fc db with
  | none => none
  | some (tx, none) => some (tx, none)
  | some (_, some e) => some (db, some e)

/-! ## item.go -/

/-- Condition `path=? and type=?` on `item_list`. -/
def Item.pathTypeIs (path : List Char) (itype : EntryType) (r : Item) : Bool :=
  r.Path == path && r.Type_ == itype

/-- The assignments `path = ?, updated_at = ?` on `item_list`. -/
def Item.setPath (path : List Char) (now : Int) (r : Item) : Item :=
  { r with Path := path, UpdatedAt := now }

/-- Function `AddItem`; `now` is the time gorm stamps the new row with. -/
def AddItem (now : Int) (path : List Char) (itype : EntryType) (db : DB) :
    DB × Option Err :=
  let path := Trim path
  if path = [] then (db, none)
  else
    let item : Item :=
      { Path := path, Type_ := int32 itype, CreatedAt := now, UpdatedAt := now }
    let result := Create SqlItemTableName Item.Path item db.item_list
    match result.Error with
    | some e =>
      if isUniqueKeyExist e then ({ db with item_list := result.rows }, none)
      else ({ db with item_list := result.rows }, some e)
    | none => ({ db with item_list := result.rows }, none)

/-- Function `DeleteItem`. -/
def DeleteItem (path : List Char) (itype : EntryType) (db : DB) : DB × Option Err :=
  let path := Trim path
  let result := Delete (Item.pathTypeIs path itype) db.item_list
  match result.Error with
  | some e => ({ db with item_list := result.rows }, some e)
  | none => ({ db with item_list := result.rows }, none)

/-- Body of the transaction in `RenameItem`: delete the row at `newPath`,
run the update again.  When the update fails the closure returns `rd.Error`,
the error of the delete. -/
def RenameItemTx (now : Int) (oldPath newPath : List Char) (tx : DB) : DB × Option Err :=
  let rd := Delete (Item.pathTypeIs newPath EntryObject) tx.item_list
  match rd.Error with
  | some e => ({ tx with item_list := rd.rows }, some e)
  | none =>
    let ru := Updates SqlItemTableName Item.Path (Item.pathTypeIs oldPath EntryObject)
      (Item.setPath newPath now) rd.rows
    match ru.Error with
    | some _ => ({ tx with item_list := ru.rows }, rd.Error)
    | none => ({ tx with item_list := ru.rows }, none)

/-- Function `RenameItem`; `now` is `time.Now().Unix()`. -/
def RenameItem (now : Int) (oldPath newPath : List Char) (db : DB) : DB × Option Err :=
  let oldPath := Trim oldPath
  let newPath := Trim newPath
  let result := Updates SqlItemTableName Item.Path (Item.pathTypeIs oldPath EntryObject)
    (Item.setPath newPath now) db.item_list
  match result.Error with
  | some e =>
    if isUniqueKeyExist e then
      match Transaction (RenameItemTx now oldPath newPath) db with
      | (db', some err) => (db', some err)
      | (db', none) => (db', none)
    else (db, some e)
  | none => ({ db with item_list := result.rows }, none)

/-- Whether `fmt.Sprintf("replace(path, '%s/', '%s/')", oldPath, newPath)` is
the call of `replace` on the two string literals `'oldPath/'` and `'newPath/'`:
no quote stands in either path. -/
def quoteFree (oldPath newPath : List Char) : Bool :=
  !(oldPath.contains (Char.ofNat 39)) && !(newPath.contains (Char.ofNat 39))

/-- The text `fmt.Sprintf("replace(path, '%s/', '%s/')", oldPath, newPath)`, which
`gorm.Expr` puts into the statement as it is. -/
def replaceExprText (oldPath newPath : List Char) : List Char :=
  "replace(path, ".toList ++ [Char.ofNat 39] ++ oldPath ++ ['/', Char.ofNat 39] ++
    ", ".toList ++ [Char.ofNat 39] ++ newPath ++ ['/', Char.ofNat 39, ')']

/-- The value `replace(path, 'oldPath/', 'newPath/')` assigns to `path`, the
value of `replaceExprText` when no quote stands in either path. -/
def replaceExpr (oldPath newPath : List Char) (path : List Char) : List Char :=
  sqlReplace path (oldPath ++ ['/']) (newPath ++ ['/'])

/-- The descendant statement of a directory rename, on either table:
`UPDATE t SET path = replace(path, 'oldPath/', 'newPath/'), updated_at = ?
WHERE path like ?`, the pattern being `oldPath%`.

With a quote in a path the pasted text is no longer this statement, and what
the engine and the driver do with it is outside the embedding: `none`.
Without a quote: a NUL in a path ends the text inside a string literal and the
statement is refused; a pattern of more than `maxLikePatternLength` bytes
fails `like` on the first row it is evaluated on; otherwise the update runs. -/
def UpdatesLeaf {α : Type} (table : String) (key : α → List Char)
    (set : List Char → Int → α → α) (now : Int) (oldPath newPath : List Char)
    (t : List α) : Option (Result α) :=
  if quoteFree oldPath newPath then
    if oldPath.contains (Char.ofNat 0) || newPath.contains (Char.ofNat 0) then
      some ⟨t, some .sqlError⟩
    else if maxLikePatternLength < utf8Len (Trim oldPath ++ ['%']) && !t.isEmpty then
      some ⟨t, some .likePatternTooComplex⟩
    else
      some (Updates table key (fun r => likeFunc (Trim oldPath ++ ['%']) (key r))
        (fun r => set (replaceExpr oldPath newPath (key r)) now r) t)
  else none

/-- Body of the transaction in `RenameDirItem`. -/
def RenameDirItemTx (nowSelf nowLeaf : Int) (oldPath newPath : List Char) (tx : DB) :
    Option (DB × Option Err) :=
  let resultSelf := Updates SqlItemTableName Item.Path
    (Item.pathTypeIs oldPath EntryDirectory) (Item.setPath newPath nowSelf) tx.item_list
  match resultSelf.Error with
  | some e => some ({ tx with item_list := resultSelf.rows }, some e)
  | none =>
    match UpdatesLeaf SqlItemTableName Item.Path Item.setPath nowLeaf
      oldPath newPath resultSelf.rows with
    | none => none
    | some resultLeaf =>
      match resultLeaf.Error with
      | some e => some ({ tx with item_list := resultLeaf.rows }, some e)
      | none => some ({ tx with item_list := resultLeaf.rows }, none)

/-- Function `RenameDirItem`; `nowSelf` and `nowLeaf` are its two readings of
`time.Now().Unix()`.  The value is `none` when the run is outside the
embedding (see `UpdatesLeaf`). -/
def RenameDirItem (nowSelf nowLeaf : Int) (oldPath newPath : List Char) (db : DB) :
    Option (DB × Option Err) :=
  let oldPath := Trim oldPath
  let newPath := Trim newPath
  match TransactionOpt (RenameDirItemTx nowSelf nowLeaf oldPath newPath) db with
  | none => none
  | some (db', some txErr) => some (db', some txErr)
  | some (db', none) => some (db', none)

/-- Function `GetAllItem`. -/
def GetAllItem (db : DB) : List Item × Option Err :=
  (db.item_list, none)

/-! ## meta.go -/

/-- Condition `path=? and type=?` on `meta_list`. -/
def ItemMeta.pathTypeIs (path : List Char) (itype : EntryType) (r : ItemMeta) : Bool :=
  r.Path == path && r.Type_ == itype

/-- The assignments `path = ?, updated_at = ?` on `meta_list`. -/
def ItemMeta.setPath (path : List Char) (now : Int) (r : ItemMeta) : ItemMeta :=
  { r with Path := path, UpdatedAt := now }

/-- The assignment `info = ?` of the upsert. -/
def ItemMeta.setInfo (info : List UInt8) (r : ItemMeta) : ItemMeta :=
  { r with Info := info }

/-- Function `AddMeta`; `now` is the time gorm stamps the new row with. -/
def AddMeta (now : Int) (path : List Char) (itype : EntryType) (info : List UInt8)
    (db : DB) : DB × Option Err :=
  let path := Trim path
  if path = [] then (db, none)
  else
    let row : ItemMeta :=
      { Path := path, Type_ := int32 itype, Info := info, CreatedAt := now,
        UpdatedAt := now }
    let result := Create SqlMetaTableName ItemMeta.Path row db.meta_list
    match result.Error with
    | some e =>
      if isUniqueKeyExist e then ({ db with meta_list := result.rows }, none)
      else ({ db with meta_list := result.rows }, some e)
    | none => ({ db with meta_list := result.rows }, none)

/-- Function `DeleteMeta`. -/
def DeleteMeta (path : List Char) (itype : EntryType) (db : DB) : DB × Option Err :=
  let path := Trim path
  let result := Delete (ItemMeta.pathTypeIs path itype) db.meta_list
  match result.Error with
  | some e => ({ db with meta_list := result.rows }, some e)
  | none => ({ db with meta_list := result.rows }, none)

/-- Statement `SELECT ... WHERE cond ORDER BY path LIMIT 1` into a zeroed
`ItemMeta`: the matching row, or the untouched zero value and
`ErrRecordNotFound`. -/
def First (cond : ItemMeta → Bool) (t : List ItemMeta) : ItemMeta × Option Err :=
  match t.find? cond with
  | some r => (r, none)
  | none => (⟨[], 0, [], 0, 0⟩, some .ErrRecordNotFound)

/-- Function `GetMeta`. -/
def GetMeta (path : List Char) (itype : EntryType) (db : DB) : ItemMeta × Option Err :=
  let path := Trim path
  let (row, err) := First (ItemMeta.pathTypeIs path itype) db.meta_list
  match err with
  | some e => (row, some e)
  | none => (row, none)

/-- Function `UpsertMeta`; `now` is the time gorm stamps a new row with. -/
def UpsertMeta (now : Int) (path : List Char) (itype : EntryType) (info : List UInt8)
    (db : DB) : DB × Option Err :=
  let path := Trim path
  if path = [] then (db, none)
  else
    let row : ItemMeta :=
      { Type_ := int32 itype, Path := path, Info := info, CreatedAt := now,
        UpdatedAt := now }
    let result := Upsert ItemMeta.Path row (ItemMeta.setInfo info) db.meta_list
    match result.Error with
    | some e => ({ db with meta_list := result.rows }, some e)
    | none => ({ db with meta_list := result.rows }, none)

/-- Body of the transaction in `RenameItemMeta`: delete the row at `newPath`,
run the update again.  When the update fails the closure returns `rd.Error`,
the error of the delete. -/
def RenameItemMetaTx (now : Int) (oldPath newPath : List Char) (itype : EntryType)
    (tx : DB) : DB × Option Err :=
  let rd := Delete (ItemMeta.pathTypeIs newPath itype) tx.meta_list
  match rd.Error with
  | some e => ({ tx with meta_list := rd.rows }, some e)
  | none =>
    let ru := Updates SqlMetaTableName ItemMeta.Path (ItemMeta.pathTypeIs oldPath itype)
      (ItemMeta.setPath newPath now) rd.rows
    match ru.Error with
    | some _ => ({ tx with meta_list := ru.rows }, rd.Error)
    | none => ({ tx with meta_list := ru.rows }, none)

/-- Function `RenameItemMeta`; `now` is `time.Now().Unix()`. -/
def RenameItemMeta (now : Int) (oldPath newPath : List Char) (itype : EntryType)
    (db : DB) : DB × Option Err :=
  let oldPath := Trim oldPath
  let newPath := Trim newPath
  let result := Updates SqlMetaTableName ItemMeta.Path (ItemMeta.pathTypeIs oldPath itype)
    (ItemMeta.setPath newPath now) db.meta_list
  match result.Error with
  | some e =>
    if isUniqueKeyExist e then
      match Transaction (RenameItemMetaTx now oldPath newPath itype) db with
      | (db', some err) => (db', some err)
      | (db', none) => (db', none)
    else (db, some e)
  | none => ({ db with meta_list := result.rows }, none)

/-- Body of the transaction in `RenameDirMeta`. -/
def RenameDirMetaTx (nowSelf nowLeaf : Int) (oldPath newPath : List Char) (tx : DB) :
    Option (DB × Option Err) :=
  let resultSelf := Updates SqlMetaTableName ItemMeta.Path
    (ItemMeta.pathTypeIs oldPath EntryDirectory) (ItemMeta.setPath newPath nowSelf)
    tx.meta_list
  match resultSelf.Error with
  | some e => some ({ tx with meta_list := resultSelf.rows }, some e)
  | none =>
    match UpdatesLeaf SqlMetaTableName ItemMeta.Path ItemMeta.setPath nowLeaf
      oldPath newPath resultSelf.rows with
    | none => none
    | some resultLeaf =>
      match resultLeaf.Error with
      | some e => some ({ tx with meta_list := resultLeaf.rows }, some e)
      | none => some ({ tx with meta_list := resultLeaf.rows }, none)

/-- Function `RenameDirMeta`; `nowSelf` and `nowLeaf` are its two readings of
`time.Now().Unix()`.  The value is `none` when the run is outside the
embedding (see `UpdatesLeaf`). -/
def RenameDirMeta (nowSelf nowLeaf : Int) (oldPath newPath : List Char) (db : DB) :
    Option (DB × Option Err) :=
  let oldPath := Trim oldPath
  let newPath := Trim newPath
  match TransactionOpt (RenameDirMetaTx nowSelf nowLeaf oldPath newPath) db with
  | none => none
  | some (db', some txErr) => some (db', some txErr)
  | some (db', none) => some (db', none)

/-- Body of the transaction in `CleanAllCache`: `delete from meta_list;` then
`delete from item_list;`. -/
def CleanAllCacheTx (tx : DB) : DB × Option Err :=
  let resultMeta := Delete (fun _ => true) tx.meta_list
  match resultMeta.Error with
  | some e => ({ tx with meta_list := resultMeta.rows }, some e)
  | none =>
    let resultItem := Delete (fun _ => true) tx.item_list
    match resultItem.Error with
    | some e => ({ item_list := resultItem.rows, meta_list := resultMeta.rows }, some e)
    | none => ({ item_list := resultItem.rows, meta_list := resultMeta.rows }, none)

/-- Function `CleanAllCache`. -/
def CleanAllCache (db : DB) : DB × Option Err :=
  match Transaction CleanAllCacheTx db with
  | (db', some txErr) => (db', some txErr)
  | (db', none) => (db', none)

/-- Function `GetAllMeta`. -/
def GetAllMeta (db : DB) : List ItemMeta × Option Err :=
  (db.meta_list, none)

/-! ## Properties of the stores -/

/-- Outcome of a rename of the entry at `A` onto the occupied path `B`, from the
rows `t` to the rows `t'`: exactly one entry at `B`, namely `moved` (the former
entry of `A` under its new path), none at `A`, and the entries at the other
paths as before. -/
def RenamedOnto {α : Type} (key : α → List Char) (moved : α) (A B : List Char)
    (t t' : List α) : Prop :=
  t'.countP (fun x => decide (key x = B)) = 1 ∧ moved ∈ t' ∧ (∀ x ∈ t', key x ≠ A) ∧
    ∀ x, key x ≠ A → key x ≠ B → (x ∈ t' ↔ x ∈ t)

/-! ## Example stores -/

/-- Both tables hold an object (type 1) at `a`, an object at `b` and a
directory (type 0) at `c`. -/
def twoObjects : DB :=
  { item_list := [⟨"a".toList, 1, 10, 10⟩, ⟨"b".toList, 1, 20, 20⟩, ⟨"c".toList, 0, 30, 30⟩],
    meta_list := [⟨"a".toList, 1, [1, 2], 10, 10⟩, ⟨"b".toList, 1, [3], 20, 20⟩,
      ⟨"c".toList, 0, [], 30, 30⟩] }

/-- Both tables hold an object (type 1) at `a` and a directory (type 0) at `b`. -/
def objectAndDir : DB :=
  { item_list := [⟨"a".toList, 1, 10, 10⟩, ⟨"b".toList, 0, 20, 20⟩],
    meta_list := [⟨"a".toList, 1, [1, 2], 10, 10⟩, ⟨"b".toList, 0, [3], 20, 20⟩] }

/-- The store with no rows. -/
def emptyDb : DB := { item_list := [], meta_list := [] }

/-- Both tables hold the directory `a/b` with the object `a/b/f`, and beside it
the directory `a/bc` with the object `a/bc/a/b/x`. -/
def siblingTree : DB :=
  { item_list := [⟨"a/b".toList, 0, 10, 10⟩, ⟨"a/b/f".toList, 1, 20, 20⟩,
      ⟨"a/bc".toList, 0, 30, 30⟩, ⟨"a/bc/a/b/x".toList, 1, 40, 40⟩],
    meta_list := [⟨"a/b".toList, 0, [], 10, 10⟩, ⟨"a/b/f".toList, 1, [1], 20, 20⟩,
      ⟨"a/bc".toList, 0, [], 30, 30⟩, ⟨"a/bc/a/b/x".toList, 1, [2], 40, 40⟩] }

/-- Both tables hold the directory `a` and the object `a/a/x`. -/
def nestedName : DB :=
  { item_list := [⟨"a".toList, 0, 10, 10⟩, ⟨"a/a/x".toList, 1, 20, 20⟩],
    meta_list := [⟨"a".toList, 0, [], 10, 10⟩, ⟨"a/a/x".toList, 1, [1], 20, 20⟩] }

/-- Both tables hold the directory `a` and the object `a/x`. -/
def dirWithFile : DB :=
  { item_list := [⟨"a".toList, 0, 10, 10⟩, ⟨"a/x".toList, 1, 20, 20⟩],
    meta_list := [⟨"a".toList, 0, [], 10, 10⟩, ⟨"a/x".toList, 1, [1], 20, 20⟩] }

/-- Both tables hold the directory `a` and the objects `a/a/x` and `a/b/x`. -/
def twoDescendants : DB :=
  { item_list := [⟨"a".toList, 0, 10, 10⟩, ⟨"a/a/x".toList, 1, 20, 20⟩,
      ⟨"a/b/x".toList, 1, 30, 30⟩],
    meta_list := [⟨"a".toList, 0, [], 10, 10⟩, ⟨"a/a/x".toList, 1, [1], 20, 20⟩,
      ⟨"a/b/x".toList, 1, [2], 30, 30⟩] }

/-! ## Lemmas on the statements -/

section Statements

variable {α : Type}

theorem UpdatesGo_of_no_match (table : String) (key : α → List Char) (cond : α → Bool)
    (set : α → α) (done rest : List α) (h : ∀ x ∈ rest, cond x = false) :
    UpdatesGo table key cond set done rest = .ok (done ++ rest) := by
  induction rest generalizing done with
  | nil => simp [UpdatesGo]
  | cons r rest ih =>
    have hr : cond r = false := h r (List.mem_cons_self _ _)
    have hrest : ∀ x ∈ rest, cond x = false := fun x hx => h x (List.mem_cons_of_mem _ hx)
    simp [UpdatesGo, hr, ih _ hrest]

theorem UpdatesGo_of_one_match (table : String) (key : α → List Char) (cond : α → Bool)
    (set : α → α) (done pre post : List α) (r : α)
    (hpre : ∀ x ∈ pre, cond x = false) (hr : cond r = true)
    (hpost : ∀ x ∈ post, cond x = false) :
    UpdatesGo table key cond set done (pre ++ r :: post) =
      if (done ++ (pre ++ post)).any (fun x => key x == key (set r)) then
        .error (.uniqueConstraint table)
      else .ok (done ++ (pre ++ set r :: post)) := by
  induction pre generalizing done with
  | nil =>
    simp only [List.nil_append, UpdatesGo, hr, if_true]
    split
    · rfl
    · rw [UpdatesGo_of_no_match table key cond set _ post hpost]
      simp
  | cons p pre ih =>
    have hp : cond p = false := hpre p (List.mem_cons_self _ _)
    have hpre2 : ∀ x ∈ pre, cond x = false := fun x hx => hpre x (List.mem_cons_of_mem _ hx)
    have step : UpdatesGo table key cond set done (p :: (pre ++ r :: post)) =
        UpdatesGo table key cond set (done ++ [p]) (pre ++ r :: post) := by
      simp [UpdatesGo, hp]
    rw [List.cons_append, step, ih _ hpre2]
    simp

theorem UniquePaths.split {key : α → List Char} {t : List α} (hu : UniquePaths key t)
    {a : α} (ha : a ∈ t) :
    ∃ pre post, t = pre ++ a :: post ∧ (∀ x ∈ pre, key x ≠ key a) ∧
      (∀ x ∈ post, key x ≠ key a) := by
  obtain ⟨pre, post, rfl⟩ := List.append_of_mem ha
  refine ⟨pre, post, rfl, ?_, ?_⟩
  · intro x hx hk
    unfold UniquePaths at hu
    rw [List.map_append, List.map_cons, List.nodup_append] at hu
    exact hu.2.2 (List.mem_map_of_mem key hx) (hk ▸ List.mem_cons_self _ _)
  · intro x hx hk
    unfold UniquePaths at hu
    rw [List.map_append, List.map_cons, List.nodup_append, List.nodup_cons] at hu
    exact hu.2.1.1 (hk ▸ List.mem_map_of_mem key hx)

theorem UniquePaths.eq_of_key {key : α → List Char} {t : List α} (hu : UniquePaths key t)
    {x y : α} (hx : x ∈ t) (hy : y ∈ t) (h : key x = key y) : x = y :=
  List.inj_on_of_nodup_map hu hx hy h

theorem UniquePaths.countP_eq_one {key : α → List Char} {t : List α}
    (hu : UniquePaths key t) {x : α} (hx : x ∈ t) :
    t.countP (fun y => decide (key y = key x)) = 1 := by
  induction t with
  | nil => cases hx
  | cons y ys ih =>
    unfold UniquePaths at hu
    rw [List.map_cons, List.nodup_cons] at hu
    by_cases h : key y = key x
    · rw [List.countP_cons_of_pos _ _ (by simpa using h)]
      have h0 : ys.countP (fun y => decide (key y = key x)) = 0 := by
        rw [List.countP_eq_zero]
        intro a ha hk
        have hk2 : key a = key x := by simpa using hk
        exact hu.1 (List.mem_map.2 ⟨a, ha, hk2.trans h.symm⟩)
      rw [h0]
    · rw [List.countP_cons_of_neg _ _ (by simpa using h)]
      rcases List.mem_cons.1 hx with hxy | hxy
      · exact absurd (hxy ▸ rfl) h
      · exact ih hu.2 hxy

theorem Updates_conflict (table : String) (key : α → List Char) (cond : α → Bool)
    (set : α → α) (t : List α) (hu : UniquePaths key t) (a b : α) (ha : a ∈ t)
    (hb : b ∈ t) (hc : cond a = true) (hcond : ∀ x, cond x = true → key x = key a)
    (hkb : key b = key (set a)) (hne : key b ≠ key a) :
    Updates table key cond set t = ⟨t, some (.uniqueConstraint table)⟩ := by
  obtain ⟨pre, post, rfl, hpre, hpost⟩ := hu.split ha
  have h1 : ∀ x ∈ pre, cond x = false := fun x hx => by
    cases h : cond x with
    | false => rfl
    | true => exact absurd (hcond x h) (hpre x hx)
  have h2 : ∀ x ∈ post, cond x = false := fun x hx => by
    cases h : cond x with
    | false => rfl
    | true => exact absurd (hcond x h) (hpost x hx)
  have hb2 : b ∈ pre ++ post := by
    rcases List.mem_append.1 hb with h | h
    · exact List.mem_append_left _ h
    · rcases List.mem_cons.1 h with h | h
      · exact absurd (h ▸ rfl) hne
      · exact List.mem_append_right _ h
  have hany : ([] ++ (pre ++ post)).any (fun x => key x == key (set a)) = true := by
    rw [List.nil_append, List.any_eq_true]
    exact ⟨b, hb2, by simp [hkb]⟩
  unfold Updates
  rw [UpdatesGo_of_one_match table key cond set [] pre post a h1 hc h2, if_pos hany]

theorem Updates_move (table : String) (key : α → List Char) (cond : α → Bool)
    (set : α → α) (t : List α) (hu : UniquePaths key t) (a : α) (ha : a ∈ t)
    (hc : cond a = true) (hcond : ∀ x, cond x = true → key x = key a)
    (hfree : ∀ x ∈ t, key x ≠ key (set a)) :
    ∃ t', Updates table key cond set t = ⟨t', none⟩ ∧ UniquePaths key t' ∧
      ∀ x, x ∈ t' ↔ (x = set a ∨ (x ∈ t ∧ key x ≠ key a)) := by
  obtain ⟨pre, post, rfl, hpre, hpost⟩ := hu.split ha
  have h1 : ∀ x ∈ pre, cond x = false := fun x hx => by
    cases h : cond x with
    | false => rfl
    | true => exact absurd (hcond x h) (hpre x hx)
  have h2 : ∀ x ∈ post, cond x = false := fun x hx => by
    cases h : cond x with
    | false => rfl
    | true => exact absurd (hcond x h) (hpost x hx)
  have hany : ([] ++ (pre ++ post)).any (fun x => key x == key (set a)) = false := by
    rw [List.nil_append, List.any_eq_false]
    intro x hx
    have hx2 : x ∈ pre ++ a :: post := by
      rcases List.mem_append.1 hx with h | h
      · exact List.mem_append_left _ h
      · exact List.mem_append_right _ (List.mem_cons_of_mem _ h)
    simpa using hfree x hx2
  refine ⟨pre ++ set a :: post, ?_, ?_, ?_⟩
  · unfold Updates
    rw [UpdatesGo_of_one_match table key cond set [] pre post a h1 hc h2, hany]
    simp
  · unfold UniquePaths at hu ⊢
    rw [List.map_append, List.map_cons, List.nodup_append, List.nodup_cons] at hu ⊢
    refine ⟨hu.1, ⟨?_, hu.2.1.2⟩, ?_⟩
    · intro hm
      obtain ⟨x, hx, hk⟩ := List.mem_map.1 hm
      exact hfree x (List.mem_append_right _ (List.mem_cons_of_mem _ hx)) hk
    · intro k hk1 hk2
      rcases List.mem_cons.1 hk2 with h | h
      · obtain ⟨x, hx, hk⟩ := List.mem_map.1 hk1
        exact hfree x (List.mem_append_left _ hx) (hk.trans h)
      · exact hu.2.2 hk1 (List.mem_cons_of_mem _ h)
  · intro x
    constructor
    · intro hx
      rcases List.mem_append.1 hx with h | h
      · exact Or.inr ⟨List.mem_append_left _ h, hpre x h⟩
      · rcases List.mem_cons.1 h with h | h
        · exact Or.inl h
        · exact Or.inr ⟨List.mem_append_right _ (List.mem_cons_of_mem _ h), hpost x h⟩
    · rintro (h | ⟨hx, hk⟩)
      · exact h ▸ List.mem_append_right _ (List.mem_cons_self _ _)
      · rcases List.mem_append.1 hx with h | h
        · exact List.mem_append_left _ h
        · rcases List.mem_cons.1 h with h | h
          · exact absurd (h ▸ rfl) hk
          · exact List.mem_append_right _ (List.mem_cons_of_mem _ h)

/-- The two statements of the collision fallback on a table with unique paths,
when the destination holds an entry of the renamed type: the first update is
refused, and after the eviction the update moves the entry. -/
theorem evict_then_move (table : String) (key : α → List Char) (ty : α → Int)
    (set : α → α) (condA condB : α → Bool) (A B : List Char) (τ : Int)
    (hA : ∀ r, condA r = true ↔ (key r = A ∧ ty r = τ))
    (hB : ∀ r, condB r = true ↔ (key r = B ∧ ty r = τ))
    (hset : ∀ r, key (set r) = B) (t : List α) (hu : UniquePaths key t) (a b : α)
    (ha : a ∈ t) (hka : key a = A) (hta : ty a = τ) (hb : b ∈ t) (hkb : key b = B)
    (htb : ty b = τ) (hne : A ≠ B) :
    Updates table key condA set t = ⟨t, some (.uniqueConstraint table)⟩ ∧
    ∃ t', Updates table key condA set (Delete condB t).rows = ⟨t', none⟩ ∧
      RenamedOnto key (set a) A B t t' := by
  have hcA : condA a = true := (hA a).2 ⟨hka, hta⟩
  have hcond : ∀ x, condA x = true → key x = key a := fun x hx =>
    ((hA x).1 hx).1.trans hka.symm
  constructor
  · exact Updates_conflict table key condA set t hu a b ha hb hcA hcond
      (hkb.trans (hset a).symm) (by rw [hka, hkb]; exact fun h => hne h.symm)
  · have hmem : ∀ x, x ∈ (Delete condB t).rows ↔ (x ∈ t ∧ key x ≠ B) := by
      intro x
      simp only [Delete, List.mem_filter, Bool.not_eq_true', Bool.not_eq_true]
      constructor
      · rintro ⟨hx, hc⟩
        refine ⟨hx, fun hk => ?_⟩
        have hxb : x = b := hu.eq_of_key hx hb (hk.trans hkb.symm)
        have : condB x = true := (hB x).2 ⟨hk, hxb ▸ htb⟩
        rw [this] at hc
        exact Bool.noConfusion hc
      · rintro ⟨hx, hk⟩
        refine ⟨hx, ?_⟩
        cases h : condB x with
        | false => rfl
        | true => exact absurd ((hB x).1 h).1 hk
    have hu1 : UniquePaths key (Delete condB t).rows := by
      unfold UniquePaths at hu ⊢
      exact (List.filter_sublist _).map key |>.nodup hu
    have ha1 : a ∈ (Delete condB t).rows := (hmem a).2 ⟨ha, by rw [hka]; exact hne⟩
    have hfree : ∀ x ∈ (Delete condB t).rows, key x ≠ key (set a) := fun x hx => by
      rw [hset]
      exact ((hmem x).1 hx).2
    obtain ⟨t', ht', hu', hmem'⟩ :=
      Updates_move table key condA set _ hu1 a ha1 hcA hcond hfree
    refine ⟨t', ht', ?_, ?_, ?_, ?_⟩
    · have h1 := hu'.countP_eq_one ((hmem' (set a)).2 (Or.inl rfl))
      rwa [hset] at h1
    · exact (hmem' _).2 (Or.inl rfl)
    · intro x hx
      rcases (hmem' x).1 hx with h | ⟨_, h⟩
      · rw [h, hset]
        exact fun h => hne h.symm
      · rwa [hka] at h
    · intro x hxA hxB
      rw [hmem' x, hmem x, hka]
      constructor
      · rintro (h | ⟨⟨hx, _⟩, _⟩)
        · exact absurd (h ▸ hset a) hxB
        · exact hx
      · exact fun hx => Or.inr ⟨⟨hx, hxB⟩, hxA⟩

end Statements

theorem isUniqueKeyExist_item :
    isUniqueKeyExist (.uniqueConstraint SqlItemTableName) = true := by decide

theorem isUniqueKeyExist_meta :
    isUniqueKeyExist (.uniqueConstraint SqlMetaTableName) = true := by decide

theorem Item_pathTypeIs_iff (path : List Char) (itype : EntryType) (r : Item) :
    Item.pathTypeIs path itype r = true ↔ (r.Path = path ∧ r.Type_ = itype) := by
  simp [Item.pathTypeIs]

theorem ItemMeta_pathTypeIs_iff (path : List Char) (itype : EntryType) (r : ItemMeta) :
    ItemMeta.pathTypeIs path itype r = true ↔ (r.Path = path ∧ r.Type_ = itype) := by
  simp [ItemMeta.pathTypeIs]

/-! ## Single-entry rename -/

/-- C1 (amended): a single-entry rename of the entry at `A` onto a path `B ≠ A`
that holds an entry of the type being renamed returns no error and leaves
exactly one entry at `B`, the former entry of `A` (its type, in the meta store
its payload) with the refreshed timestamp, none at `A`, nothing of the former
entry of `B`, and every other entry as it was; on `RenameItem` and on
`RenameItemMeta`, with `A` and `B` the trimmed arguments. -/
theorem rename_onto_entry_of_same_type (now : Int) (oldPath newPath : List Char)
    (itype : EntryType) (db : DB) (hne : Trim oldPath ≠ Trim newPath) :
    (∀ a b : Item, UniquePaths Item.Path db.item_list →
      a ∈ db.item_list → a.Path = Trim oldPath → a.Type_ = EntryObject →
      b ∈ db.item_list → b.Path = Trim newPath → b.Type_ = EntryObject →
      (RenameItem now oldPath newPath db).2 = none ∧
      (RenameItem now oldPath newPath db).1.meta_list = db.meta_list ∧
      RenamedOnto Item.Path (Item.setPath (Trim newPath) now a) (Trim oldPath)
        (Trim newPath) db.item_list (RenameItem now oldPath newPath db).1.item_list) ∧
    (∀ a b : ItemMeta, UniquePaths ItemMeta.Path db.meta_list →
      a ∈ db.meta_list → a.Path = Trim oldPath → a.Type_ = itype →
      b ∈ db.meta_list → b.Path = Trim newPath → b.Type_ = itype →
      (RenameItemMeta now oldPath newPath itype db).2 = none ∧
      (RenameItemMeta now oldPath newPath itype db).1.item_list = db.item_list ∧
      RenamedOnto ItemMeta.Path (ItemMeta.setPath (Trim newPath) now a) (Trim oldPath)
        (Trim newPath) db.meta_list
        (RenameItemMeta now oldPath newPath itype db).1.meta_list) := by
  constructor
  · intro a b hu ha hka hta hb hkb htb
    obtain ⟨h1, t', h2, h3⟩ := evict_then_move SqlItemTableName Item.Path Item.Type_
      (Item.setPath (Trim newPath) now) (Item.pathTypeIs (Trim oldPath) EntryObject)
      (Item.pathTypeIs (Trim newPath) EntryObject) (Trim oldPath) (Trim newPath)
      EntryObject (Item_pathTypeIs_iff _ _) (Item_pathTypeIs_iff _ _) (fun _ => rfl)
      db.item_list hu a b ha hka hta hb hkb htb hne
    have hres : RenameItem now oldPath newPath db = ({ db with item_list := t' }, none) := by
      simp only [RenameItem, h1, isUniqueKeyExist_item, if_true, Transaction, RenameItemTx]
      have hd : (Delete (Item.pathTypeIs (Trim newPath) EntryObject) db.item_list).Error
          = none := rfl
      simp only [hd, h2]
    rw [hres]
    exact ⟨rfl, rfl, h3⟩
  · intro a b hu ha hka hta hb hkb htb
    obtain ⟨h1, t', h2, h3⟩ := evict_then_move SqlMetaTableName ItemMeta.Path
      ItemMeta.Type_ (ItemMeta.setPath (Trim newPath) now)
      (ItemMeta.pathTypeIs (Trim oldPath) itype)
      (ItemMeta.pathTypeIs (Trim newPath) itype) (Trim oldPath) (Trim newPath)
      itype (ItemMeta_pathTypeIs_iff _ _) (ItemMeta_pathTypeIs_iff _ _) (fun _ => rfl)
      db.meta_list hu a b ha hka hta hb hkb htb hne
    have hres : RenameItemMeta now oldPath newPath itype db =
        ({ db with meta_list := t' }, none) := by
      simp only [RenameItemMeta, h1, isUniqueKeyExist_meta, if_true, Transaction,
        RenameItemMetaTx]
      have hd : (Delete (ItemMeta.pathTypeIs (Trim newPath) itype) db.meta_list).Error
          = none := rfl
      simp only [hd, h2]
    rw [hres]
    exact ⟨rfl, rfl, h3⟩

/-- Witness of C1 (amended): on `twoObjects`, renaming `/a` to `b/` at time 50
moves the object of `a` onto `b` in either table. -/
theorem rename_onto_entry_of_same_type_witness :
    (Trim "/a".toList ≠ Trim "b/".toList ∧
      UniquePaths Item.Path twoObjects.item_list ∧
      UniquePaths ItemMeta.Path twoObjects.meta_list) ∧
    ((RenameItem 50 "/a".toList "b/".toList twoObjects).2 = none ∧
      (RenameItem 50 "/a".toList "b/".toList twoObjects).1.meta_list
        = twoObjects.meta_list ∧
      RenamedOnto Item.Path (Item.setPath (Trim "b/".toList) 50 ⟨"a".toList, 1, 10, 10⟩)
        (Trim "/a".toList) (Trim "b/".toList) twoObjects.item_list
        (RenameItem 50 "/a".toList "b/".toList twoObjects).1.item_list) ∧
    ((RenameItemMeta 50 "/a".toList "b/".toList 1 twoObjects).2 = none ∧
      (RenameItemMeta 50 "/a".toList "b/".toList 1 twoObjects).1.item_list
        = twoObjects.item_list ∧
      RenamedOnto ItemMeta.Path
        (ItemMeta.setPath (Trim "b/".toList) 50 ⟨"a".toList, 1, [1, 2], 10, 10⟩)
        (Trim "/a".toList) (Trim "b/".toList) twoObjects.meta_list
        (RenameItemMeta 50 "/a".toList "b/".toList 1 twoObjects).1.meta_list) :=
  ⟨⟨by decide, by decide, by decide⟩,
    (rename_onto_entry_of_same_type 50 "/a".toList "b/".toList 1 twoObjects
      (by decide)).1 ⟨"a".toList, 1, 10, 10⟩ ⟨"b".toList, 1, 20, 20⟩
      (by decide) (by decide) (by decide) (by decide) (by decide) (by decide) (by decide),
    (rename_onto_entry_of_same_type 50 "/a".toList "b/".toList 1 twoObjects
      (by decide)).2 ⟨"a".toList, 1, [1, 2], 10, 10⟩ ⟨"b".toList, 1, [3], 20, 20⟩
      (by decide) (by decide) (by decide) (by decide) (by decide) (by decide) (by decide)⟩

/-- C1 (counterexample): on `objectAndDir` the object at `a` and the directory
at `b` sit at different paths, yet renaming `a` to `b` returns no error and
changes nothing: the entry of `a` is still at `a` and `b` keeps its directory
entry, in the item store and in the meta store. -/
theorem rename_onto_entry_of_other_type :
    (UniquePaths Item.Path objectAndDir.item_list ∧
      (⟨"a".toList, EntryObject, 10, 10⟩ : Item) ∈ objectAndDir.item_list ∧
      (⟨"b".toList, EntryDirectory, 20, 20⟩ : Item) ∈ objectAndDir.item_list ∧
      RenameItem 50 "a".toList "b".toList objectAndDir = (objectAndDir, none) ∧
      ¬ RenamedOnto Item.Path (Item.setPath "b".toList 50 ⟨"a".toList, EntryObject, 10, 10⟩)
        "a".toList "b".toList objectAndDir.item_list
        (RenameItem 50 "a".toList "b".toList objectAndDir).1.item_list) ∧
    (UniquePaths ItemMeta.Path objectAndDir.meta_list ∧
      (⟨"a".toList, EntryObject, [1, 2], 10, 10⟩ : ItemMeta) ∈ objectAndDir.meta_list ∧
      (⟨"b".toList, EntryDirectory, [3], 20, 20⟩ : ItemMeta) ∈ objectAndDir.meta_list ∧
      RenameItemMeta 50 "a".toList "b".toList EntryObject objectAndDir
        = (objectAndDir, none) ∧
      ¬ RenamedOnto ItemMeta.Path
        (ItemMeta.setPath "b".toList 50 ⟨"a".toList, EntryObject, [1, 2], 10, 10⟩)
        "a".toList "b".toList objectAndDir.meta_list
        (RenameItemMeta 50 "a".toList "b".toList EntryObject objectAndDir).1.meta_list) := by
  refine ⟨⟨by decide, by decide, by decide, by decide, ?_⟩,
    ⟨by decide, by decide, by decide, by decide, ?_⟩⟩
  · intro h
    exact h.2.2.1 ⟨"a".toList, EntryObject, 10, 10⟩ (by decide) rfl
  · intro h
    exact h.2.2.1 ⟨"a".toList, EntryObject, [1, 2], 10, 10⟩ (by decide) rfl

/-- C4 (the code at the failing input): on `objectAndDir` the first update of
the rename of `a` to `b` hits the uniqueness conflict, the update re-applied
after the delete of the fallback fails on it again, and the rename returns no
error; in the item store and in the meta store. -/
theorem rename_reports_success_when_fallback_fails :
    ((Updates SqlItemTableName Item.Path (Item.pathTypeIs "a".toList EntryObject)
        (Item.setPath "b".toList 50) objectAndDir.item_list).Error
        = some (.uniqueConstraint SqlItemTableName) ∧
      (Updates SqlItemTableName Item.Path (Item.pathTypeIs "a".toList EntryObject)
        (Item.setPath "b".toList 50)
        (Delete (Item.pathTypeIs "b".toList EntryObject) objectAndDir.item_list).rows).Error
        = some (.uniqueConstraint SqlItemTableName) ∧
      RenameItem 50 "a".toList "b".toList objectAndDir = (objectAndDir, none)) ∧
    ((Updates SqlMetaTableName ItemMeta.Path (ItemMeta.pathTypeIs "a".toList EntryObject)
        (ItemMeta.setPath "b".toList 50) objectAndDir.meta_list).Error
        = some (.uniqueConstraint SqlMetaTableName) ∧
      (Updates SqlMetaTableName ItemMeta.Path (ItemMeta.pathTypeIs "a".toList EntryObject)
        (ItemMeta.setPath "b".toList 50)
        (Delete (ItemMeta.pathTypeIs "b".toList EntryObject)
          objectAndDir.meta_list).rows).Error
        = some (.uniqueConstraint SqlMetaTableName) ∧
      RenameItemMeta 50 "a".toList "b".toList EntryObject objectAndDir
        = (objectAndDir, none)) := by
  decide

/-! ## Directory rename -/

theorem TransactionOpt_rollback (fc : DB → Option (DB × Option Err)) (db db' : DB)
    (e : Err) (h : TransactionOpt fc db = some (db', some e)) : db' = db := by
  unfold TransactionOpt at h
  rcases hfc : fc db with _ | ⟨tx, _ | e'⟩
  · rw [hfc] at h
    cases h
  · rw [hfc] at h
    cases h
  · rw [hfc] at h
    cases h
    rfl

theorem RenameDirItem_eq (nowSelf nowLeaf : Int) (oldPath newPath : List Char) (db : DB) :
    RenameDirItem nowSelf nowLeaf oldPath newPath db =
      TransactionOpt (RenameDirItemTx nowSelf nowLeaf (Trim oldPath) (Trim newPath)) db := by
  rcases h : TransactionOpt (RenameDirItemTx nowSelf nowLeaf (Trim oldPath) (Trim newPath)) db
    with _ | ⟨db', _ | e⟩ <;> simp only [RenameDirItem, h]

theorem RenameDirMeta_eq (nowSelf nowLeaf : Int) (oldPath newPath : List Char) (db : DB) :
    RenameDirMeta nowSelf nowLeaf oldPath newPath db =
      TransactionOpt (RenameDirMetaTx nowSelf nowLeaf (Trim oldPath) (Trim newPath)) db := by
  rcases h : TransactionOpt (RenameDirMetaTx nowSelf nowLeaf (Trim oldPath) (Trim newPath)) db
    with _ | ⟨db', _ | e⟩ <;> simp only [RenameDirMeta, h]

/-- On the runs of the embedding, a directory rename that returns an error
leaves the store as it was: the statements are rolled back. -/
theorem RenameDir_embedded_rollback (nowSelf nowLeaf : Int) (oldPath newPath : List Char)
    (db db' : DB) (e : Err) :
    (RenameDirItem nowSelf nowLeaf oldPath newPath db = some (db', some e) → db' = db) ∧
    (RenameDirMeta nowSelf nowLeaf oldPath newPath db = some (db', some e) → db' = db) := by
  rw [RenameDirItem_eq, RenameDirMeta_eq]
  exact ⟨TransactionOpt_rollback _ db db' e, TransactionOpt_rollback _ db db' e⟩

/-- C5 (the code at the failing input): on `dirWithFile`, for the rename of
directory `a` to the path made of `z`, a quote, and the text `); COMMIT;`
followed by a blank and two dashes, the first statement of the transaction
succeeds and moves the directory row, and in the text pasted into the second
statement the quote of the new path ends the string literal: `COMMIT` stands
in the text as a statement of its own, and the run leaves the embedding; in
the item store and in the meta store. -/
theorem rename_dir_pastes_path_into_statement :
    replaceExprText "a".toList "z'); COMMIT; --".toList
      = "replace(path, 'a/', 'z'); COMMIT; --/')".toList ∧
    quoteFree "a".toList "z'); COMMIT; --".toList = false ∧
    (Updates SqlItemTableName Item.Path (Item.pathTypeIs "a".toList EntryDirectory)
        (Item.setPath "z'); COMMIT; --".toList 50) dirWithFile.item_list).Error = none ∧
    (Updates SqlItemTableName Item.Path (Item.pathTypeIs "a".toList EntryDirectory)
        (Item.setPath "z'); COMMIT; --".toList 50) dirWithFile.item_list).rows
      = [⟨"z'); COMMIT; --".toList, 0, 10, 50⟩, ⟨"a/x".toList, 1, 20, 20⟩] ∧
    RenameDirItem 50 60 "a".toList "z'); COMMIT; --".toList dirWithFile = none ∧
    (Updates SqlMetaTableName ItemMeta.Path (ItemMeta.pathTypeIs "a".toList EntryDirectory)
        (ItemMeta.setPath "z'); COMMIT; --".toList 50) dirWithFile.meta_list).Error = none ∧
    RenameDirMeta 50 60 "a".toList "z'); COMMIT; --".toList dirWithFile = none := by
  decide

/-- C2 (the code at the failing input): on `siblingTree` the path `a/bc/a/b/x`
is not `a/b` and does not start with `a/b/`, and the rename of directory `a/b`
to `z` succeeds and moves that entry to `a/bc/z/x`; in the item store and in the
meta store. -/
theorem rename_dir_rewrites_under_sibling :
    ("a/bc/a/b/x".toList ≠ "a/b".toList ∧
      ("a/b".toList ++ ['/']).isPrefixOf "a/bc/a/b/x".toList = false) ∧
    RenameDirItem 50 60 "a/b".toList "z".toList siblingTree
      = some ({ item_list := [⟨"z".toList, 0, 10, 50⟩, ⟨"z/f".toList, 1, 20, 60⟩,
                  ⟨"a/bc".toList, 0, 30, 60⟩, ⟨"a/bc/z/x".toList, 1, 40, 60⟩],
                meta_list := siblingTree.meta_list }, none) ∧
    RenameDirMeta 50 60 "a/b".toList "z".toList siblingTree
      = some ({ item_list := siblingTree.item_list,
                meta_list := [⟨"z".toList, 0, [], 10, 50⟩, ⟨"z/f".toList, 1, [1], 20, 60⟩,
                  ⟨"a/bc".toList, 0, [], 30, 60⟩, ⟨"a/bc/z/x".toList, 1, [2], 40, 60⟩] },
          none) := by
  decide

/-- C3 (the code at the failing input): on `nestedName` the rename of directory
`a` to `b` succeeds, and the entry that was at `a/` followed by `a/x` is
afterwards at `b/b/x`, not at `b/` followed by `a/x`; in the item store and in
the meta store. -/
theorem rename_dir_rewrites_remainder :
    ("a/a/x".toList = "a".toList ++ ['/'] ++ "a/x".toList ∧
      "b/a/x".toList = "b".toList ++ ['/'] ++ "a/x".toList) ∧
    RenameDirItem 50 60 "a".toList "b".toList nestedName
      = some ({ item_list := [⟨"b".toList, 0, 10, 50⟩, ⟨"b/b/x".toList, 1, 20, 60⟩],
                meta_list := nestedName.meta_list }, none) ∧
    RenameDirMeta 50 60 "a".toList "b".toList nestedName
      = some ({ item_list := nestedName.item_list,
                meta_list := [⟨"b".toList, 0, [], 10, 50⟩,
                  ⟨"b/b/x".toList, 1, [1], 20, 60⟩] }, none) := by
  decide

/-- C7 (the code at the failing input): for the rename of `a` to `b` the
distinct paths `a/a/x` and `a/b/x`, both starting with `a/`, are sent to the
same destination `b/b/x`, and on `twoDescendants` the descendant statement
fails on the uniqueness conflict between the two (the first statement having
succeeded), so that the directory rename fails. -/
theorem rename_dir_descendants_collide :
    ("a/a/x".toList ≠ "a/b/x".toList ∧
      ("a".toList ++ ['/']).isPrefixOf "a/a/x".toList = true ∧
      ("a".toList ++ ['/']).isPrefixOf "a/b/x".toList = true) ∧
    (replaceExpr "a".toList "b".toList "a/a/x".toList = "b/b/x".toList ∧
      replaceExpr "a".toList "b".toList "a/b/x".toList = "b/b/x".toList) ∧
    ((Updates SqlItemTableName Item.Path (Item.pathTypeIs "a".toList EntryDirectory)
        (Item.setPath "b".toList 50) twoDescendants.item_list).Error = none ∧
      RenameDirItem 50 60 "a".toList "b".toList twoDescendants
        = some (twoDescendants, some (.uniqueConstraint SqlItemTableName))) ∧
    ((Updates SqlMetaTableName ItemMeta.Path (ItemMeta.pathTypeIs "a".toList EntryDirectory)
        (ItemMeta.setPath "b".toList 50) twoDescendants.meta_list).Error = none ∧
      RenameDirMeta 50 60 "a".toList "b".toList twoDescendants
        = some (twoDescendants, some (.uniqueConstraint SqlMetaTableName))) := by
  decide

/-! ## The empty path -/

/-- C6 (the code at the failing input): starting from the store with no rows,
`AddItem("a")` followed by `RenameItem("a", "/")` leaves an item at the empty
path; so do `AddMeta("a")` followed by `RenameItemMeta("a", "")`, and the
directory renames of `d` to `/` after adding `d` and `d/f`. -/
theorem rename_creates_entry_at_empty_path :
    RenameItem 50 "a".toList "/".toList (AddItem 10 "a".toList EntryObject emptyDb).1
      = ({ item_list := [⟨[], EntryObject, 10, 50⟩], meta_list := [] }, none) ∧
    RenameItemMeta 50 "a".toList [] EntryObject
        (AddMeta 10 "a".toList EntryObject [7] emptyDb).1
      = ({ item_list := [], meta_list := [⟨[], EntryObject, [7], 10, 50⟩] }, none) ∧
    RenameDirItem 50 60 "d".toList "/".toList
        (AddItem 20 "d/f".toList EntryObject (AddItem 10 "d".toList EntryDirectory emptyDb).1).1
      = some ({ item_list := [⟨[], EntryDirectory, 10, 50⟩,
                  ⟨"/f".toList, EntryObject, 20, 60⟩],
                meta_list := [] }, none) ∧
    RenameDirMeta 50 60 "d".toList "/".toList
        (AddMeta 20 "d/f".toList EntryObject [7]
          (AddMeta 10 "d".toList EntryDirectory [] emptyDb).1).1
      = some ({ item_list := [],
                meta_list := [⟨[], EntryDirectory, [], 10, 50⟩,
                  ⟨"/f".toList, EntryObject, [7], 20, 60⟩] }, none) := by
  decide

/-! ## Upsert -/

theorem Upsert_spec {α : Type} (key : α → List Char) (r : α) (f : α → α)
    (hf : ∀ x, key (f x) = key x) (t : List α) (hu : UniquePaths key t) :
    (Upsert key r f t).Error = none ∧ UniquePaths key (Upsert key r f t).rows ∧
    (∀ x, key x ≠ key r → (x ∈ (Upsert key r f t).rows ↔ x ∈ t)) ∧
    (∀ x ∈ (Upsert key r f t).rows, key x = key r →
      (∃ o ∈ t, key o = key r ∧ x = f o) ∨ ((∀ o ∈ t, key o ≠ key r) ∧ x = r)) ∧
    (∃ x ∈ (Upsert key r f t).rows, key x = key r) := by
  unfold Upsert
  by_cases hany : t.any (fun x => key x == key r) = true
  · rw [if_pos hany]
    have hkey : ∀ x, key (if (key x == key r) = true then f x else x) = key x := by
      intro x
      split
      · exact hf x
      · rfl
    obtain ⟨o, ho, hko⟩ := List.any_eq_true.1 hany
    have hko2 : key o = key r := by simpa using hko
    refine ⟨rfl, ?_, ?_, ?_, ?_⟩
    · unfold UniquePaths at hu ⊢
      have : (t.map (fun x => if (key x == key r) = true then f x else x)).map key
          = t.map key := by
        rw [List.map_map]
        exact List.map_congr_left (fun x _ => hkey x)
      rw [this]
      exact hu
    · intro x hx
      simp only [List.mem_map]
      constructor
      · rintro ⟨y, hy, hyx⟩
        have hky : key y = key x := by rw [← hyx, hkey]
        have hne : ¬ ((key y == key r) = true) := by
          simpa [hky] using hx
        rw [if_neg hne] at hyx
        exact hyx ▸ hy
      · intro hxt
        refine ⟨x, hxt, ?_⟩
        have hne : ¬ ((key x == key r) = true) := by simpa using hx
        rw [if_neg hne]
    · intro x hx hkx
      obtain ⟨y, hy, hyx⟩ := List.mem_map.1 hx
      have hky : key y = key r := by rw [← hkx, ← hyx, hkey]
      have hpos : (key y == key r) = true := by simpa using hky
      rw [if_pos hpos] at hyx
      exact Or.inl ⟨y, hy, hky, hyx.symm⟩
    · refine ⟨f o, List.mem_map.2 ⟨o, ho, ?_⟩, (hf o).trans hko2⟩
      have hpos : (key o == key r) = true := by simpa using hko2
      rw [if_pos hpos]
  · rw [if_neg hany]
    have hfree : ∀ o ∈ t, key o ≠ key r := by
      intro o ho hk
      exact hany (List.any_eq_true.2 ⟨o, ho, by simpa using hk⟩)
    refine ⟨rfl, ?_, ?_, ?_, ?_⟩
    · unfold UniquePaths at hu ⊢
      rw [List.map_append, List.nodup_append]
      refine ⟨hu, List.nodup_singleton _, ?_⟩
      intro k hk1 hk2
      obtain ⟨o, ho, hko⟩ := List.mem_map.1 hk1
      have : k = key r := by simpa using hk2
      exact hfree o ho (hko.trans this)
    · intro x hx
      simp only [List.mem_append, List.mem_singleton]
      constructor
      · rintro (h | h)
        · exact h
        · exact absurd (h ▸ rfl) hx
      · exact Or.inl
    · intro x hx hkx
      rcases List.mem_append.1 hx with h | h
      · exact absurd hkx (hfree x h)
      · exact Or.inr ⟨hfree, List.mem_singleton.1 h⟩
    · exact ⟨r, List.mem_append_right _ (List.mem_singleton_self r), rfl⟩

theorem int32_of_fits (t : Int) (h1 : -2147483648 ≤ t) (h2 : t < 2147483648) :
    int32 t = t := by
  unfold int32
  omega

/-- C8 (amended): on a meta store with unique paths and for a path `p` that is
non-empty after trimming, `UpsertMeta(p, t, b)` returns no error, leaves the
item store alone and leaves exactly one entry at the trimmed `p`; the payload
of that entry is `b`; its type is the type of the entry that was at the
trimmed `p` before the call when there was one, and `int32(t)` when there was
none, which is `t` itself when `t` fits in 32 bits; an entry at another path is
in the store afterwards exactly when it was there before. -/
theorem upsert_meta_spec (now : Int) (p : List Char) (t : EntryType) (b : List UInt8)
    (db : DB) (hu : UniquePaths ItemMeta.Path db.meta_list) (hp : Trim p ≠ []) :
    (UpsertMeta now p t b db).2 = none ∧
    (UpsertMeta now p t b db).1.item_list = db.item_list ∧
    (UpsertMeta now p t b db).1.meta_list.countP (fun x => decide (x.Path = Trim p)) = 1 ∧
    (∀ x ∈ (UpsertMeta now p t b db).1.meta_list, x.Path = Trim p →
      x.Info = b ∧ (∀ o ∈ db.meta_list, o.Path = Trim p → x.Type_ = o.Type_) ∧
      ((∀ o ∈ db.meta_list, o.Path ≠ Trim p) →
        x.Type_ = int32 t ∧ (-2147483648 ≤ t → t < 2147483648 → x.Type_ = t))) ∧
    (∀ x : ItemMeta, x.Path ≠ Trim p →
      (x ∈ (UpsertMeta now p t b db).1.meta_list ↔ x ∈ db.meta_list)) := by
  obtain ⟨h1, h2, h3, h4, x0, hx0, hk0⟩ := Upsert_spec ItemMeta.Path
    ({ Type_ := int32 t, Path := Trim p, Info := b, CreatedAt := now, UpdatedAt := now } :
      ItemMeta)
    (ItemMeta.setInfo b) (fun _ => rfl) db.meta_list hu
  have hres : UpsertMeta now p t b db =
      ({ db with meta_list := (Upsert ItemMeta.Path
        ({ Type_ := int32 t, Path := Trim p, Info := b, CreatedAt := now,
            UpdatedAt := now } : ItemMeta) (ItemMeta.setInfo b) db.meta_list).rows },
        none) := by
    simp only [UpsertMeta, if_neg hp, h1]
  rw [hres]
  refine ⟨rfl, rfl, ?_, ?_, h3⟩
  · have := h2.countP_eq_one hx0
    rw [hk0] at this
    exact this
  · intro x hx hkx
    rcases h4 x hx hkx with ⟨o, ho, hko, hxo⟩ | ⟨hfree, hxr⟩
    · refine ⟨by rw [hxo]; rfl, ?_, ?_⟩
      · intro o' ho' hko'
        have : o' = o := hu.eq_of_key ho' ho (hko'.trans hko.symm)
        rw [this, hxo]
        rfl
      · intro hnone
        exact absurd hko (hnone o ho)
    · refine ⟨by rw [hxr], ?_, ?_⟩
      · intro o ho hko
        exact absurd hko (hfree o ho)
      · intro _
        rw [hxr]
        exact ⟨rfl, fun h1 h2 => int32_of_fits t h1 h2⟩

/-- Witness of C8 (amended): on `twoObjects`, `UpsertMeta("/b/", 0, [9])` keeps
the type 1 of the entry at `b`, with one entry at `b`; `UpsertMeta("d", 7, [9])`
adds an entry of type 7. -/
theorem upsert_meta_spec_witness :
    (UniquePaths ItemMeta.Path twoObjects.meta_list ∧ Trim "/b/".toList ≠ [] ∧
      Trim "d".toList ≠ [] ∧
      (⟨"d".toList, 7, [9], 50, 50⟩ : ItemMeta)
        ∈ (UpsertMeta 50 "d".toList 7 [9] twoObjects).1.meta_list ∧
      (∀ o ∈ twoObjects.meta_list, o.Path ≠ Trim "d".toList)) ∧
    (UpsertMeta 50 "/b/".toList 0 [9] twoObjects).1.meta_list
      = [⟨"a".toList, 1, [1, 2], 10, 10⟩, ⟨"b".toList, 1, [9], 20, 20⟩,
          ⟨"c".toList, 0, [], 30, 30⟩] ∧
    (UpsertMeta 50 "/b/".toList 0 [9] twoObjects).1.meta_list.countP
      (fun x => decide (x.Path = Trim "/b/".toList)) = 1 ∧
    (⟨"d".toList, 7, [9], 50, 50⟩ : ItemMeta).Type_ = 7 :=
  ⟨⟨by decide, by decide, by decide, by decide, by decide⟩, by decide,
    (upsert_meta_spec 50 "/b/".toList 0 [9] twoObjects (by decide) (by decide)).2.2.1,
    ((((upsert_meta_spec 50 "d".toList 7 [9] twoObjects (by decide) (by decide)).2.2.2.1
      ⟨"d".toList, 7, [9], 50, 50⟩ (by decide) (by decide)).2.2 (by decide)).2
      (by decide) (by decide))⟩

/-- C8 (counterexample): on the store with no rows, where no entry is at `p`,
`UpsertMeta("p", 2147483648, [9])` returns no error and leaves at `p` an entry
of type -2147483648, not of type 2147483648. -/
theorem upsert_meta_stores_int32_of_type :
    UpsertMeta 50 "p".toList 2147483648 [9] emptyDb
      = ({ item_list := [], meta_list := [⟨"p".toList, -2147483648, [9], 50, 50⟩] }, none) ∧
    (-2147483648 : Int) ≠ 2147483648 ∧ Trim "p".toList ≠ [] ∧
    UniquePaths ItemMeta.Path emptyDb.meta_list := by
  decide

/-! ## Insert -/

theorem Create_of_present {α : Type} (table : String) (key : α → List Char) (r : α)
    (t : List α) (h : ∃ x ∈ t, key x = key r) :
    Create table key r t = ⟨t, some (.uniqueConstraint table)⟩ := by
  obtain ⟨x, hx, hk⟩ := h
  have hany : t.any (fun x => key x == key r) = true :=
    List.any_eq_true.2 ⟨x, hx, by simpa using hk⟩
  simp only [Create, if_pos hany]

theorem Create_of_absent {α : Type} (table : String) (key : α → List Char) (r : α)
    (t : List α) (h : ¬ ∃ x ∈ t, key x = key r) :
    Create table key r t = ⟨t ++ [r], none⟩ := by
  have hany : ¬ (t.any (fun x => key x == key r) = true) := by
    intro ha
    obtain ⟨x, hx, hk⟩ := List.any_eq_true.1 ha
    exact h ⟨x, hx, by simpa using hk⟩
  simp only [Create, if_neg hany]

theorem AddItem_of_present (now : Int) (p : List Char) (t : EntryType) (db : DB)
    (h : ∃ x ∈ db.item_list, x.Path = Trim p) : AddItem now p t db = (db, none) := by
  by_cases hp : Trim p = []
  · simp only [AddItem, if_pos hp]
  · simp only [AddItem, if_neg hp]
    rw [Create_of_present SqlItemTableName Item.Path _ db.item_list h]
    simp only [isUniqueKeyExist_item, if_true]

theorem AddMeta_of_present (now : Int) (p : List Char) (t : EntryType) (info : List UInt8)
    (db : DB) (h : ∃ x ∈ db.meta_list, x.Path = Trim p) :
    AddMeta now p t info db = (db, none) := by
  by_cases hp : Trim p = []
  · simp only [AddMeta, if_pos hp]
  · simp only [AddMeta, if_neg hp]
    rw [Create_of_present SqlMetaTableName ItemMeta.Path _ db.meta_list h]
    simp only [isUniqueKeyExist_meta, if_true]

theorem AddItem_of_absent (now : Int) (p : List Char) (t : EntryType) (db : DB)
    (hp : Trim p ≠ []) (h : ¬ ∃ x ∈ db.item_list, x.Path = Trim p) :
    AddItem now p t db =
      ({ db with item_list := db.item_list ++ [⟨Trim p, int32 t, now, now⟩] }, none) := by
  simp only [AddItem, if_neg hp]
  rw [Create_of_absent SqlItemTableName Item.Path _ db.item_list h]

theorem AddMeta_of_absent (now : Int) (p : List Char) (t : EntryType) (info : List UInt8)
    (db : DB) (hp : Trim p ≠ []) (h : ¬ ∃ x ∈ db.meta_list, x.Path = Trim p) :
    AddMeta now p t info db =
      ({ db with meta_list := db.meta_list ++ [⟨Trim p, int32 t, info, now, now⟩] },
        none) := by
  simp only [AddMeta, if_neg hp]
  rw [Create_of_absent SqlMetaTableName ItemMeta.Path _ db.meta_list h]

theorem UniquePaths.append_fresh {α : Type} {key : α → List Char} {t : List α}
    (hu : UniquePaths key t) (r : α) (h : ¬ ∃ x ∈ t, key x = key r) :
    UniquePaths key (t ++ [r]) := by
  unfold UniquePaths at hu ⊢
  rw [List.map_append, List.nodup_append]
  refine ⟨hu, List.nodup_singleton _, ?_⟩
  intro k hk1 hk2
  obtain ⟨o, ho, hko⟩ := List.mem_map.1 hk1
  have : k = key r := by simpa using hk2
  exact h ⟨o, ho, hko.trans this⟩

/-- C9 (amended): `AddItem` and `AddMeta` on a store that already holds an entry
at the trimmed path, of whatever type, return no error and leave the store
unchanged; an Add followed by the same Add returns no error twice and yields
the store of the single Add; an Add whose path is empty after trimming is a
no-op: it returns no error and leaves the store, which gains no entry, as it
was; and when the trimmed path is non-empty and the paths of the store are
unique, the store after the Add holds exactly one entry at the trimmed path. -/
theorem add_twice_eq_add_once (now now' : Int) (p : List Char) (t : EntryType)
    (info : List UInt8) (db : DB) :
    (((∃ x ∈ db.item_list, x.Path = Trim p) → AddItem now p t db = (db, none)) ∧
      ((∃ x ∈ db.meta_list, x.Path = Trim p) → AddMeta now p t info db = (db, none))) ∧
    ((AddItem now p t db).2 = none ∧
      AddItem now' p t (AddItem now p t db).1 = ((AddItem now p t db).1, none) ∧
      (AddMeta now p t info db).2 = none ∧
      AddMeta now' p t info (AddMeta now p t info db).1
        = ((AddMeta now p t info db).1, none)) ∧
    (Trim p = [] →
      AddItem now p t db = (db, none) ∧ AddMeta now p t info db = (db, none)) ∧
    (Trim p ≠ [] →
      (UniquePaths Item.Path db.item_list →
        (AddItem now p t db).1.item_list.countP (fun x => decide (x.Path = Trim p)) = 1) ∧
      (UniquePaths ItemMeta.Path db.meta_list →
        (AddMeta now p t info db).1.meta_list.countP
          (fun x => decide (x.Path = Trim p)) = 1)) := by
  refine ⟨⟨AddItem_of_present now p t db, AddMeta_of_present now p t info db⟩, ?_, ?_, ?_⟩
  · by_cases hp : Trim p = []
    · have e1 : ∀ (n : Int) (d : DB), AddItem n p t d = (d, none) := fun n d => by
        simp only [AddItem, if_pos hp]
      have e2 : ∀ (n : Int) (d : DB), AddMeta n p t info d = (d, none) := fun n d => by
        simp only [AddMeta, if_pos hp]
      simp only [e1, e2, and_self]
    · refine ⟨?_, ?_, ?_, ?_⟩
      · by_cases h : ∃ x ∈ db.item_list, x.Path = Trim p
        · rw [AddItem_of_present now p t db h]
        · rw [AddItem_of_absent now p t db hp h]
      · by_cases h : ∃ x ∈ db.item_list, x.Path = Trim p
        · rw [AddItem_of_present now p t db h]
          exact AddItem_of_present now' p t db h
        · rw [AddItem_of_absent now p t db hp h]
          exact AddItem_of_present now' p t _
            ⟨_, List.mem_append_right _ (List.mem_singleton_self _), rfl⟩
      · by_cases h : ∃ x ∈ db.meta_list, x.Path = Trim p
        · rw [AddMeta_of_present now p t info db h]
        · rw [AddMeta_of_absent now p t info db hp h]
      · by_cases h : ∃ x ∈ db.meta_list, x.Path = Trim p
        · rw [AddMeta_of_present now p t info db h]
          exact AddMeta_of_present now' p t info db h
        · rw [AddMeta_of_absent now p t info db hp h]
          exact AddMeta_of_present now' p t info _
            ⟨_, List.mem_append_right _ (List.mem_singleton_self _), rfl⟩
  · intro hp
    constructor
    · simp only [AddItem, if_pos hp]
    · simp only [AddMeta, if_pos hp]
  · intro hp
    constructor
    · intro hu
      by_cases h : ∃ x ∈ db.item_list, x.Path = Trim p
      · rw [AddItem_of_present now p t db h]
        obtain ⟨x, hx, hk⟩ := h
        have := hu.countP_eq_one hx
        rwa [hk] at this
      · rw [AddItem_of_absent now p t db hp h]
        exact (hu.append_fresh (⟨Trim p, int32 t, now, now⟩ : Item) h).countP_eq_one
          (x := (⟨Trim p, int32 t, now, now⟩ : Item))
          (List.mem_append_right _ (List.mem_singleton_self _))
    · intro hu
      by_cases h : ∃ x ∈ db.meta_list, x.Path = Trim p
      · rw [AddMeta_of_present now p t info db h]
        obtain ⟨x, hx, hk⟩ := h
        have := hu.countP_eq_one hx
        rwa [hk] at this
      · rw [AddMeta_of_absent now p t info db hp h]
        exact (hu.append_fresh (⟨Trim p, int32 t, info, now, now⟩ : ItemMeta)
          h).countP_eq_one (x := (⟨Trim p, int32 t, info, now, now⟩ : ItemMeta))
          (List.mem_append_right _ (List.mem_singleton_self _))

/-- Witness of C9 (amended): on `twoObjects` a directory added at `/b/`, where
an object sits, changes nothing, an Add at `//` changes nothing, and a
directory added at `d` is there once. -/
theorem add_twice_eq_add_once_witness :
    ((∃ x ∈ twoObjects.item_list, x.Path = Trim "/b/".toList) ∧
      (∃ x ∈ twoObjects.meta_list, x.Path = Trim "/b/".toList) ∧
      Trim "//".toList = [] ∧
      Trim "d".toList ≠ [] ∧ UniquePaths Item.Path twoObjects.item_list ∧
      UniquePaths ItemMeta.Path twoObjects.meta_list) ∧
    (AddItem 50 "/b/".toList 0 twoObjects = (twoObjects, none) ∧
      AddMeta 50 "/b/".toList 0 [9] twoObjects = (twoObjects, none)) ∧
    (AddItem 50 "//".toList 0 twoObjects = (twoObjects, none) ∧
      AddMeta 50 "//".toList 0 [9] twoObjects = (twoObjects, none)) ∧
    ((AddItem 50 "d".toList 0 twoObjects).1.item_list.countP
        (fun x => decide (x.Path = Trim "d".toList)) = 1 ∧
      (AddMeta 50 "d".toList 0 [9] twoObjects).1.meta_list.countP
        (fun x => decide (x.Path = Trim "d".toList)) = 1) :=
  ⟨⟨by decide, by decide, by decide, by decide, by decide, by decide⟩,
    ⟨(add_twice_eq_add_once 50 60 "/b/".toList 0 [9] twoObjects).1.1 (by decide),
      (add_twice_eq_add_once 50 60 "/b/".toList 0 [9] twoObjects).1.2 (by decide)⟩,
    (add_twice_eq_add_once 50 60 "//".toList 0 [9] twoObjects).2.2.1 (by decide),
    ⟨((add_twice_eq_add_once 50 60 "d".toList 0 [9] twoObjects).2.2.2 (by decide)).1
        (by decide),
      ((add_twice_eq_add_once 50 60 "d".toList 0 [9] twoObjects).2.2.2 (by decide)).2
        (by decide)⟩⟩

/-- C9 (counterexample): on the store with no rows, `Add("/", t)` followed by
`Add("/", t)` returns no error and leaves no entry at the trimmed path (the
empty path), nor at `/`, in the item store and in the meta store; the store
holds no entry at all. -/
theorem add_of_empty_path_adds_nothing :
    (AddItem 60 "/".toList EntryObject (AddItem 50 "/".toList EntryObject emptyDb).1
        = (emptyDb, none) ∧
      (AddItem 60 "/".toList EntryObject
        (AddItem 50 "/".toList EntryObject emptyDb).1).1.item_list.countP
        (fun x => decide (x.Path = Trim "/".toList)) = 0 ∧
      (AddItem 60 "/".toList EntryObject
        (AddItem 50 "/".toList EntryObject emptyDb).1).1.item_list.countP
        (fun x => decide (x.Path = "/".toList)) = 0) ∧
    (AddMeta 60 "/".toList EntryObject [7] (AddMeta 50 "/".toList EntryObject [7] emptyDb).1
        = (emptyDb, none) ∧
      (AddMeta 60 "/".toList EntryObject [7]
        (AddMeta 50 "/".toList EntryObject [7] emptyDb).1).1.meta_list.countP
        (fun x => decide (x.Path = Trim "/".toList)) = 0 ∧
      (AddMeta 60 "/".toList EntryObject [7]
        (AddMeta 50 "/".toList EntryObject [7] emptyDb).1).1.meta_list.countP
        (fun x => decide (x.Path = "/".toList)) = 0) := by
  decide

/-! ## Get -/

/-- C10: `GetMeta(path, type)` returns `ErrRecordNotFound` exactly when the meta
store holds no entry whose path is the trimmed path and whose type is `type`;
when the store, its paths unique, holds such an entry, `GetMeta` returns that
entry, with its stored type and payload, and no error. -/
theorem get_meta_spec (path : List Char) (itype : EntryType) (db : DB) :
    ((GetMeta path itype db).2 = some .ErrRecordNotFound ↔
      ∀ x ∈ db.meta_list, ¬ (x.Path = Trim path ∧ x.Type_ = itype)) ∧
    ((GetMeta path itype db).2 = none ∨
      (GetMeta path itype db).2 = some .ErrRecordNotFound) ∧
    (∀ x ∈ db.meta_list, x.Path = Trim path → x.Type_ = itype →
      UniquePaths ItemMeta.Path db.meta_list → GetMeta path itype db = (x, none)) := by
  have hget : GetMeta path itype db =
      First (ItemMeta.pathTypeIs (Trim path) itype) db.meta_list := by
    unfold GetMeta
    rcases h : First (ItemMeta.pathTypeIs (Trim path) itype) db.meta_list
      with ⟨row, _ | e⟩ <;> simp only [h]
  rw [hget]
  unfold First
  cases hf : db.meta_list.find? (ItemMeta.pathTypeIs (Trim path) itype) with
  | none =>
    rw [List.find?_eq_none] at hf
    refine ⟨⟨fun _ x hx hc => hf x hx ((ItemMeta_pathTypeIs_iff _ _ x).2 hc), fun _ => rfl⟩,
      Or.inr rfl, ?_⟩
    intro x hx hk ht _
    exact absurd ((ItemMeta_pathTypeIs_iff _ _ x).2 ⟨hk, ht⟩) (hf x hx)
  | some r =>
    have hr : r ∈ db.meta_list := List.mem_of_find?_eq_some hf
    have hc : ItemMeta.pathTypeIs (Trim path) itype r = true := List.find?_some hf
    have hc2 := (ItemMeta_pathTypeIs_iff _ _ r).1 hc
    refine ⟨⟨fun h => ?_, fun h => absurd hc2 (h r hr)⟩, Or.inl rfl, ?_⟩
    · simp at h
    · intro x hx hk _ hu
      have : x = r := hu.eq_of_key hx hr (hk.trans hc2.1.symm)
      rw [this]

/-- Witness of C10: on `twoObjects`, `GetMeta("/b/", 1)` returns the entry at
`b`. -/
theorem get_meta_spec_witness :
    ((⟨"b".toList, 1, [3], 20, 20⟩ : ItemMeta) ∈ twoObjects.meta_list ∧
      UniquePaths ItemMeta.Path twoObjects.meta_list) ∧
    GetMeta "/b/".toList 1 twoObjects = (⟨"b".toList, 1, [3], 20, 20⟩, none) :=
  ⟨⟨by decide, by decide⟩,
    (get_meta_spec "/b/".toList 1 twoObjects).2.2 ⟨"b".toList, 1, [3], 20, 20⟩
      (by decide) (by decide) (by decide) (by decide)⟩

end Sqlcache
